import Mathlib

/-!
Verification of the DSSIM loss implementation in `lib/model/losses.py`
(class `DSSIMObjective`).  Tensors are modelled as a shape plus a flat,
row-major list of exact rationals; the Keras backend operations used by the
source (`K.reshape`, `K.mean`, `K.var`, elementwise arithmetic, and
TensorFlow's `extract_image_patches`) are embedded as list computations.
-/

/-- A 4-dimensional tensor: batch `b`, then three trailing axes (for
`channels_last` data these are height `h`, width `w`, channels `c`), with the
values stored row-major in `data`. -/
structure Tensor4 where
  b : ℕ
  h : ℕ
  w : ℕ
  c : ℕ
  data : List ℚ
deriving DecidableEq

/-- Pixel lookup in row-major order; out-of-range indices read the framework
default 0 (only in-range indices are ever produced by well-formed callers). -/
def Tensor4.px (t : Tensor4) (bi i j ch : ℕ) : ℚ :=
  t.data.getD (((bi * t.h + i) * t.w + j) * t.c + ch) 0

/-- Pixel lookup at integer spatial coordinates: coordinates outside the
spatial extent read 0 (TensorFlow's zero padding for `SAME` extraction). -/
def Tensor4.pxI (t : Tensor4) (bi : ℕ) (i j : ℤ) (ch : ℕ) : ℚ :=
  if 0 ≤ i ∧ i < (t.h : ℤ) ∧ 0 ≤ j ∧ j < (t.w : ℤ) then
    t.px bi i.toNat j.toNat ch
  else 0

/-- Embedding of `K.permute_dimensions(x, (0, 2, 3, 1))` as used for `channels_first`
data: the value at new index `(bi, i, j, ch)` is the old value at
`(bi, ch, i, j)`. -/
def Tensor4.permute0231 (t : Tensor4) : Tensor4 :=
  { b := t.b, h := t.w, w := t.c, c := t.h,
    data := (List.range t.b).flatMap fun bi =>
      (List.range t.w).flatMap fun i =>
        (List.range t.c).flatMap fun j =>
          (List.range t.h).map fun ch => t.px bi ch i j }

/-- Embedding of `K.reshape(y, [-1, h, w, c])`: keeps the flat data and reinterprets it
with trailing dimensions `(h, w, c)`, inferring the batch dimension.  The
framework rejects the reshape when the element count is incompatible. -/
def reshapeK (y : Tensor4) (h w c : ℕ) : Except (String × String) Tensor4 :=
  if h * w * c ≠ 0 ∧ (h * w * c) ∣ y.data.length then
    .ok ⟨y.data.length / (h * w * c), h, w, c, y.data⟩
  else
    .error ("Cannot reshape", "")

/-- Embedding of `DSSIMObjective._preprocess_padding`: converts keras' padding to
tensorflow's padding, raising `ValueError('Invalid padding:', padding)`
otherwise (the error value keeps both arguments of the `ValueError`). -/
def preprocess_padding (padding : String) : Except (String × String) String :=
  if padding = "same" then .ok "SAME"
  else if padding = "valid" then .ok "VALID"
  else .error ("Invalid padding:", padding)

/-- Number of patch positions along one spatial axis of extent `x` for kernel
`k` and stride `s` under a TensorFlow padding mode (`"VALID"` or `"SAME"`). -/
def outDim (pad : String) (x k s : ℕ) : ℕ :=
  if pad = "VALID" then (if k ≤ x then (x - k) / s + 1 else 0)
  else (x + s - 1) / s

/-- Zero padding inserted before the first pixel along one axis (0 for
`"VALID"`; half the total padding for `"SAME"`, ℕ subtraction truncating). -/
def padBefore (pad : String) (x k s : ℕ) : ℕ :=
  if pad = "VALID" then 0
  else ((outDim pad x k s - 1) * s + k - x) / 2

/-- One extracted patch, flattened over kernel rows, kernel columns and
channels, anchored at patch position `(i, j)` of batch element `bi`. -/
def patchAt (t : Tensor4) (kh kw sh sw padT padL : ℕ) (bi i j : ℕ) : List ℚ :=
  (List.range kh).flatMap fun a =>
    (List.range kw).flatMap fun b2 =>
      (List.range t.c).map fun ch =>
        t.pxI bi ((i * sh + a : ℕ) - (padT : ℤ)) ((j * sw + b2 : ℕ) - (padL : ℤ)) ch

/-- TensorFlow's `extract_image_patches(x, [1,kh,kw,1], [1,sh,sw,1], [1,1,1,1],
padding)` on a `channels_last` tensor, flattened over batch and patch grid
(one inner list per patch). -/
def extractTF (t : Tensor4) (kh kw sh sw : ℕ) (pad : String) : List (List ℚ) :=
  (List.range t.b).flatMap fun bi =>
    (List.range (outDim pad t.h kh sh)).flatMap fun i =>
      (List.range (outDim pad t.w kw sw)).map fun j =>
        patchAt t kh kw sh sw (padBefore pad t.h kh sh) (padBefore pad t.w kw sw) bi i j

/-- The configuration object built by `DSSIMObjective.__init__`. -/
structure DSSIMObjective where
  kernel_size : ℕ
  k1 : ℚ
  k2 : ℚ
  max_value : ℚ
  c_1 : ℚ
  c_2 : ℚ
  dim_ordering : String
  backend : String
deriving DecidableEq

/-- Embedding of `DSSIMObjective.__init__(k1, k2, kernel_size, max_value)`:
`c_1 = (k1 * max_value) ** 2`, `c_2 = (k2 * max_value) ** 2`; `dim_ordering`
and `backend` are read from the Keras environment. -/
def mkDSSIM (k1 k2 : ℚ) (kernel_size : ℕ) (max_value : ℚ)
    (dim_ordering backend : String) : DSSIMObjective :=
  { kernel_size := kernel_size, k1 := k1, k2 := k2, max_value := max_value,
    c_1 := (k1 * max_value) ^ 2, c_2 := (k2 * max_value) ^ 2,
    dim_ordering := dim_ordering, backend := backend }

/-- The default construction `DSSIMObjective()` under the default Keras
environment (`channels_last`, TensorFlow backend). -/
def defaultDSSIM : DSSIMObjective :=
  mkDSSIM (1/100) (3/100) 3 1 "channels_last" "tensorflow"

/-- Embedding of `DSSIMObjective.extract_image_patches`: preprocesses the padding string,
permutes `channels_first` data to `channels_last`, and extracts patches. -/
def extract_image_patches (x : Tensor4) (ksizes ssizes : ℕ × ℕ)
    (padding data_format : String) : Except (String × String) (List (List ℚ)) := do
  let pad ← preprocess_padding padding
  let x := if data_format = "channels_first" then x.permute0231 else x
  .ok (extractTF x ksizes.1 ksizes.2 ssizes.1 ssizes.2 pad)

/-- Embedding of `K.mean` over a flat list (division by a zero length yields 0 in ℚ). -/
def meanL (l : List ℚ) : ℚ := l.sum / l.length

/-- Embedding of `K.var` over a flat list: the population mean of squared deviations. -/
def varL (l : List ℚ) : ℚ := meanL (l.map fun x => (x - meanL l) ^ 2)

/-- The tensors `u_true` / `u_pred`: per-patch means (`K.mean(patches, axis=-1)`). -/
def uT (P : List (List ℚ)) : List ℚ := P.map meanL

/-- The tensors `var_true` / `var_pred`: per-patch variances (`K.var(patches, axis=-1)`). -/
def varTl (P : List (List ℚ)) : List ℚ := P.map varL

/-- The tensor `covar_true_pred = K.mean(patches_true * patches_pred, axis=-1)
- u_true * u_pred` (elementwise over the patch grid). -/
def covT (P Q : List (List ℚ)) : List ℚ :=
  List.zipWith (fun m uv => m - uv)
    ((List.zipWith (fun p q => List.zipWith (fun x y => x * y) p q) P Q).map meanL)
    (List.zipWith (fun x y => x * y) (uT P) (uT Q))

/-- The tensor `ssim = (2 * u_true * u_pred + c_1) * (2 * covar_true_pred + c_2)`. -/
def numT (c1 c2 : ℚ) (P Q : List (List ℚ)) : List ℚ :=
  List.zipWith (fun uv cv => (2 * uv + c1) * (2 * cv + c2))
    (List.zipWith (fun x y => x * y) (uT P) (uT Q)) (covT P Q)

/-- The tensor `denom = (K.square(u_true) + K.square(u_pred) + c_1)
* (var_pred + var_true + c_2)`. -/
def denT (c1 c2 : ℚ) (P Q : List (List ℚ)) : List ℚ :=
  List.zipWith (fun ss vv => (ss + c1) * (vv + c2))
    (List.zipWith (fun a b => a ^ 2 + b ^ 2) (uT P) (uT Q))
    (List.zipWith (fun x y => x + y) (varTl Q) (varTl P))

/-- The update `ssim /= denom` (elementwise). -/
def ssimT (c1 c2 : ℚ) (P Q : List (List ℚ)) : List ℚ :=
  List.zipWith (fun x y => x / y) (numT c1 c2 P Q) (denT c1 c2 P Q)

/-- The return value `K.mean((1.0 - ssim) / 2.0)`: the scalar, given the two patch
tensors (`patches_true` first, as in the source). -/
def lossT (c1 c2 : ℚ) (P Q : List (List ℚ)) : ℚ :=
  meanL ((ssimT c1 c2 P Q).map fun s => (1 - s) / 2)

/-- Per-patch covariance as computed on line 96-97 of the source:
`mean(patch_true * patch_pred) - u_true * u_pred`. -/
def covL (xs ys : List ℚ) : ℚ :=
  meanL (List.zipWith (fun x y => x * y) xs ys) - meanL xs * meanL ys

/-- Per-patch numerator `(2 * u_true * u_pred + c_1) * (2 * cov + c_2)`. -/
def numP (c1 c2 : ℚ) (xs ys : List ℚ) : ℚ :=
  (2 * (meanL xs * meanL ys) + c1) * (2 * covL xs ys + c2)

/-- Per-patch denominator
`(u_true^2 + u_pred^2 + c_1) * (var_pred + var_true + c_2)`. -/
def denP (c1 c2 : ℚ) (xs ys : List ℚ) : ℚ :=
  ((meanL xs) ^ 2 + (meanL ys) ^ 2 + c1) * (varL ys + varL xs + c2)

/-- Per-patch structural similarity: the value the elementwise tensor
pipeline of `__call__` produces for one (true, pred) patch pair. -/
def ssimP (c1 c2 : ℚ) (xs ys : List ℚ) : ℚ :=
  numP c1 c2 xs ys / denP c1 c2 xs ys

/-- Embedding of `DSSIMObjective.__call__(y_true, y_pred)`: reshape both inputs using the
static per-sample shape of `y_pred`, extract patches with the configured
kernel size as both kernel and stride under `'valid'` padding, and average
`(1 - ssim) / 2` over all patches and batch elements. -/
def DSSIM_call (cfg : DSSIMObjective) (y_true y_pred : Tensor4) :
    Except (String × String) ℚ := do
  let kernel := (cfg.kernel_size, cfg.kernel_size)
  let yt ← reshapeK y_true y_pred.h y_pred.w y_pred.c
  let yp ← reshapeK y_pred y_pred.h y_pred.w y_pred.c
  let patches_pred ← extract_image_patches yp kernel kernel "valid" cfg.dim_ordering
  let patches_true ← extract_image_patches yt kernel kernel "valid" cfg.dim_ordering
  .ok (lossT cfg.c_1 cfg.c_2 patches_true patches_pred)

/-! Section: Basic facts about `meanL`, `varL`, `covL` -/

theorem meanL_nil : meanL [] = 0 := by simp [meanL]

theorem meanL_nonneg {l : List ℚ} (h : ∀ x ∈ l, 0 ≤ x) : 0 ≤ meanL l :=
  div_nonneg (List.sum_nonneg h) (by positivity)

theorem meanL_eq_zero {l : List ℚ} (h : ∀ x ∈ l, x = 0) : meanL l = 0 := by
  unfold meanL
  rw [List.sum_eq_zero h, zero_div]

theorem varL_nonneg (l : List ℚ) : 0 ≤ varL l := by
  apply meanL_nonneg
  intro x hx
  obtain ⟨y, _, rfl⟩ := List.mem_map.mp hx
  positivity

theorem sum_map_sq_dev (u : ℚ) (l : List ℚ) :
    (l.map fun x => (x - u) ^ 2).sum
      = (l.map fun x => x ^ 2).sum - 2 * u * l.sum + l.length * u ^ 2 := by
  induction l with
  | nil => simp
  | cons a l ih =>
    simp only [List.map_cons, List.sum_cons, List.length_cons, ih]
    push_cast
    ring

/-- The embedded `K.var` agrees with the mean-of-squares-minus-squared-mean form. -/
theorem varL_eq (l : List ℚ) :
    varL l = meanL (l.map fun x => x ^ 2) - (meanL l) ^ 2 := by
  rcases eq_or_ne l [] with rfl | hne
  · simp [varL, meanL]
  · have hn : (l.length : ℚ) ≠ 0 := by
      simpa using Nat.pos_iff_ne_zero.mp (List.length_pos.mpr hne)
    unfold varL meanL
    rw [List.length_map, List.length_map, sum_map_sq_dev]
    field_simp
    ring

theorem sum_zipWith_sub : ∀ (xs ys : List ℚ), xs.length = ys.length →
    (List.zipWith (fun x y => x - y) xs ys).sum = xs.sum - ys.sum := by
  intro xs
  induction xs with
  | nil =>
    intro ys h
    have hys : ys = [] := List.length_eq_zero.mp h.symm
    subst hys
    simp
  | cons a xs ih =>
    intro ys h
    cases ys with
    | nil => simp at h
    | cons b ys =>
      simp only [List.zipWith_cons_cons, List.sum_cons,
        ih ys (by simpa using h)]
      ring

theorem sum_zipWith_add : ∀ (xs ys : List ℚ), xs.length = ys.length →
    (List.zipWith (fun x y => x + y) xs ys).sum = xs.sum + ys.sum := by
  intro xs
  induction xs with
  | nil =>
    intro ys h
    have hys : ys = [] := List.length_eq_zero.mp h.symm
    subst hys
    simp
  | cons a xs ih =>
    intro ys h
    cases ys with
    | nil => simp at h
    | cons b ys =>
      simp only [List.zipWith_cons_cons, List.sum_cons,
        ih ys (by simpa using h)]
      ring

theorem sum_zipWith_sq_sub : ∀ (xs ys : List ℚ), xs.length = ys.length →
    (List.zipWith (fun x y => (x - y) ^ 2) xs ys).sum
      = (xs.map fun x => x ^ 2).sum
        - 2 * (List.zipWith (fun x y => x * y) xs ys).sum
        + (ys.map fun y => y ^ 2).sum := by
  intro xs
  induction xs with
  | nil =>
    intro ys h
    have hys : ys = [] := List.length_eq_zero.mp h.symm
    subst hys
    simp
  | cons a xs ih =>
    intro ys h
    cases ys with
    | nil => simp at h
    | cons b ys =>
      simp only [List.zipWith_cons_cons, List.sum_cons, List.map_cons,
        ih ys (by simpa using h)]
      ring

theorem sum_zipWith_sq_add : ∀ (xs ys : List ℚ), xs.length = ys.length →
    (List.zipWith (fun x y => (x + y) ^ 2) xs ys).sum
      = (xs.map fun x => x ^ 2).sum
        + 2 * (List.zipWith (fun x y => x * y) xs ys).sum
        + (ys.map fun y => y ^ 2).sum := by
  intro xs
  induction xs with
  | nil =>
    intro ys h
    have hys : ys = [] := List.length_eq_zero.mp h.symm
    subst hys
    simp
  | cons a xs ih =>
    intro ys h
    cases ys with
    | nil => simp at h
    | cons b ys =>
      simp only [List.zipWith_cons_cons, List.sum_cons, List.map_cons,
        ih ys (by simpa using h)]
      ring

theorem meanL_zipWith_sub {xs ys : List ℚ} (h : xs.length = ys.length) :
    meanL (List.zipWith (fun x y => x - y) xs ys) = meanL xs - meanL ys := by
  unfold meanL
  rw [List.length_zipWith, h, min_self, sum_zipWith_sub xs ys h, ← h, sub_div]

theorem meanL_zipWith_add {xs ys : List ℚ} (h : xs.length = ys.length) :
    meanL (List.zipWith (fun x y => x + y) xs ys) = meanL xs + meanL ys := by
  unfold meanL
  rw [List.length_zipWith, h, min_self, sum_zipWith_add xs ys h, ← h, add_div]

/-- Variance of the elementwise difference in terms of the per-patch
statistics the source computes. -/
theorem varL_zipWith_sub {xs ys : List ℚ} (h : xs.length = ys.length) :
    varL (List.zipWith (fun x y => x - y) xs ys)
      = varL xs + varL ys - 2 * covL xs ys := by
  have hmap : ((List.zipWith (fun x y => x - y) xs ys).map fun x => x ^ 2)
      = List.zipWith (fun x y => (x - y) ^ 2) xs ys := by
    rw [List.map_zipWith]
  rw [varL_eq, varL_eq xs, varL_eq ys, covL, meanL_zipWith_sub h, hmap]
  unfold meanL
  rw [List.length_zipWith, h, min_self, List.length_zipWith, h, min_self,
    sum_zipWith_sq_sub xs ys h, List.length_map, List.length_map, ← h]
  rcases eq_or_ne (xs.length : ℚ) 0 with hn | hn
  · rw [hn]
    simp
  · field_simp
    ring

theorem varL_zipWith_add {xs ys : List ℚ} (h : xs.length = ys.length) :
    varL (List.zipWith (fun x y => x + y) xs ys)
      = varL xs + varL ys + 2 * covL xs ys := by
  have hmap : ((List.zipWith (fun x y => x + y) xs ys).map fun x => x ^ 2)
      = List.zipWith (fun x y => (x + y) ^ 2) xs ys := by
    rw [List.map_zipWith]
  rw [varL_eq, varL_eq xs, varL_eq ys, covL, meanL_zipWith_add h, hmap]
  unfold meanL
  rw [List.length_zipWith, h, min_self, List.length_zipWith, h, min_self,
    sum_zipWith_sq_add xs ys h, List.length_map, List.length_map, ← h]
  rcases eq_or_ne (xs.length : ℚ) 0 with hn | hn
  · rw [hn]
    simp
  · field_simp
    ring

/-- Bound `2 cov ≤ var_true + var_pred` (from `var(x - y) ≥ 0`). -/
theorem two_covL_le {xs ys : List ℚ} (h : xs.length = ys.length) :
    2 * covL xs ys ≤ varL xs + varL ys := by
  have h0 := varL_nonneg (List.zipWith (fun x y => x - y) xs ys)
  rw [varL_zipWith_sub h] at h0
  linarith

/-- Bound `-(var_true + var_pred) ≤ 2 cov` (from `var(x + y) ≥ 0`). -/
theorem neg_le_two_covL {xs ys : List ℚ} (h : xs.length = ys.length) :
    -(varL xs + varL ys) ≤ 2 * covL xs ys := by
  have h0 := varL_nonneg (List.zipWith (fun x y => x + y) xs ys)
  rw [varL_zipWith_add h] at h0
  linarith

/-- The source's covariance formula applied to a patch against itself is its
variance. -/
theorem covL_self (xs : List ℚ) : covL xs xs = varL xs := by
  rw [covL, varL_eq, List.zipWith_same]
  have : (xs.map fun a => a * a) = xs.map fun x => x ^ 2 := by
    apply List.map_congr_left
    intro a _
    ring
  rw [this, pow_two]

theorem covL_comm (xs ys : List ℚ) : covL xs ys = covL ys xs := by
  rw [covL, covL, List.zipWith_comm_of_comm (fun x y => x * y) mul_comm]
  ring

/-! Section: Per-patch similarity bounds -/

theorem denP_pos {c1 c2 : ℚ} (hc1 : 0 < c1) (hc2 : 0 < c2) (xs ys : List ℚ) :
    0 < denP c1 c2 xs ys := by
  unfold denP
  have h1 : 0 < (meanL xs) ^ 2 + (meanL ys) ^ 2 + c1 := by positivity
  have h2 : 0 < varL ys + varL xs + c2 := by
    have := varL_nonneg xs
    have := varL_nonneg ys
    linarith
  exact mul_pos h1 h2

theorem numP_le_denP {c1 c2 : ℚ} (hc1 : 0 < c1) (hc2 : 0 < c2)
    {xs ys : List ℚ} (hlen : xs.length = ys.length)
    (hxs : ∀ x ∈ xs, 0 ≤ x) (hys : ∀ y ∈ ys, 0 ≤ y) :
    numP c1 c2 xs ys ≤ denP c1 c2 xs ys := by
  unfold numP denP
  have hux : 0 ≤ meanL xs := meanL_nonneg hxs
  have huy : 0 ≤ meanL ys := meanL_nonneg hys
  have hf1 : 0 ≤ 2 * (meanL xs * meanL ys) + c1 := by positivity
  have hA : 2 * (meanL xs * meanL ys) + c1
      ≤ (meanL xs) ^ 2 + (meanL ys) ^ 2 + c1 := by
    nlinarith [sq_nonneg (meanL xs - meanL ys)]
  have hB : 2 * covL xs ys + c2 ≤ varL ys + varL xs + c2 := by
    have := two_covL_le hlen
    linarith
  have hBpos : 0 < varL ys + varL xs + c2 := by
    have := varL_nonneg xs
    have := varL_nonneg ys
    linarith
  rcases le_or_lt 0 (2 * covL xs ys + c2) with hf2 | hf2
  · calc (2 * (meanL xs * meanL ys) + c1) * (2 * covL xs ys + c2)
        ≤ ((meanL xs) ^ 2 + (meanL ys) ^ 2 + c1) * (2 * covL xs ys + c2) :=
          mul_le_mul_of_nonneg_right hA hf2
      _ ≤ ((meanL xs) ^ 2 + (meanL ys) ^ 2 + c1) * (varL ys + varL xs + c2) := by
          apply mul_le_mul_of_nonneg_left hB
          positivity
  · have hneg : (2 * (meanL xs * meanL ys) + c1) * (2 * covL xs ys + c2) ≤ 0 :=
      mul_nonpos_of_nonneg_of_nonpos hf1 hf2.le
    have hpos : 0 < ((meanL xs) ^ 2 + (meanL ys) ^ 2 + c1) * (varL ys + varL xs + c2) := by
      have : 0 < (meanL xs) ^ 2 + (meanL ys) ^ 2 + c1 := by positivity
      exact mul_pos this hBpos
    linarith

/-- Each per-patch similarity is at most 1 for nonnegative patches. -/
theorem ssimP_le_one {c1 c2 : ℚ} (hc1 : 0 < c1) (hc2 : 0 < c2)
    {xs ys : List ℚ} (hlen : xs.length = ys.length)
    (hxs : ∀ x ∈ xs, 0 ≤ x) (hys : ∀ y ∈ ys, 0 ≤ y) :
    ssimP c1 c2 xs ys ≤ 1 := by
  rw [ssimP, div_le_one (denP_pos hc1 hc2 xs ys)]
  exact numP_le_denP hc1 hc2 hlen hxs hys

/-- A patch compared against itself has similarity exactly 1. -/
theorem ssimP_self {c1 c2 : ℚ} (hc1 : 0 < c1) (hc2 : 0 < c2) (xs : List ℚ) :
    ssimP c1 c2 xs xs = 1 := by
  have hden : denP c1 c2 xs xs ≠ 0 := (denP_pos hc1 hc2 xs xs).ne'
  rw [ssimP, div_eq_one_iff_eq hden]
  unfold numP denP
  rw [covL_self]
  ring

theorem ssimP_comm (c1 c2 : ℚ) (xs ys : List ℚ) :
    ssimP c1 c2 xs ys = ssimP c1 c2 ys xs := by
  unfold ssimP numP denP
  rw [covL_comm]
  ring_nf

/-! Section: The elementwise pipeline collapses to a per-patch-pair map -/

theorem ssimT_eq_zip_map (c1 c2 : ℚ) :
    ∀ P Q : List (List ℚ),
      ssimT c1 c2 P Q = (P.zip Q).map fun pq => ssimP c1 c2 pq.1 pq.2 := by
  intro P
  induction P with
  | nil => intro Q; simp [ssimT, numT, denT, covT, uT, varTl]
  | cons p P ih =>
    intro Q
    cases Q with
    | nil => simp [ssimT, numT, denT, covT, uT, varTl]
    | cons q Q =>
      have hih := ih Q
      simp only [ssimT, numT, denT, covT, uT, varTl, List.map_cons,
        List.zipWith_cons_cons, List.zip_cons_cons] at hih ⊢
      rw [hih]
      rfl

theorem lossT_eq_zip_map (c1 c2 : ℚ) (P Q : List (List ℚ)) :
    lossT c1 c2 P Q
      = meanL ((P.zip Q).map fun pq => (1 - ssimP c1 c2 pq.1 pq.2) / 2) := by
  rw [lossT, ssimT_eq_zip_map, List.map_map]
  rfl

/-! Section: Facts about patch extraction -/

theorem length_flatMap_const {α β : Type} {f : α → List β}
    (l : List α) (n : ℕ) (h : ∀ a ∈ l, (f a).length = n) :
    (l.flatMap f).length = l.length * n := by
  induction l with
  | nil => simp
  | cons a l ih =>
    rw [List.flatMap_cons, List.length_append, h a (List.mem_cons_self a l),
      ih fun x hx => h x (List.mem_cons_of_mem a hx), List.length_cons]
    ring

theorem patchAt_length (t : Tensor4) (kh kw sh sw padT padL bi i j : ℕ) :
    (patchAt t kh kw sh sw padT padL bi i j).length = kh * (kw * t.c) := by
  unfold patchAt
  rw [length_flatMap_const _ (kw * t.c) fun a _ => ?_, List.length_range]
  rw [length_flatMap_const _ t.c fun b2 _ => ?_, List.length_range]
  rw [List.length_map, List.length_range]

theorem px_mem_or_zero (t : Tensor4) (bi i j ch : ℕ) :
    t.px bi i j ch ∈ t.data ∨ t.px bi i j ch = 0 := by
  unfold Tensor4.px
  rw [List.getD_eq_getElem?_getD, ← List.get?_eq_getElem?]
  cases hg : t.data.get? (((bi * t.h + i) * t.w + j) * t.c + ch) with
  | none => right; rfl
  | some v => left; exact Option.getD_some ▸ List.get?_mem hg

theorem pxI_mem_or_zero (t : Tensor4) (bi : ℕ) (i j : ℤ) (ch : ℕ) :
    t.pxI bi i j ch ∈ t.data ∨ t.pxI bi i j ch = 0 := by
  unfold Tensor4.pxI
  split
  · exact px_mem_or_zero t bi i.toNat j.toNat ch
  · right; rfl

theorem patchAt_mem_or_zero (t : Tensor4) (kh kw sh sw padT padL bi i j : ℕ) :
    ∀ x ∈ patchAt t kh kw sh sw padT padL bi i j, x ∈ t.data ∨ x = 0 := by
  intro x hx
  unfold patchAt at hx
  obtain ⟨a, _, hx⟩ := List.mem_flatMap.mp hx
  obtain ⟨b2, _, hx⟩ := List.mem_flatMap.mp hx
  obtain ⟨ch, _, rfl⟩ := List.mem_map.mp hx
  exact pxI_mem_or_zero t bi _ _ ch

theorem extractTF_mem {t : Tensor4} {kh kw sh sw : ℕ} {pad : String}
    {q : List ℚ} (hq : q ∈ extractTF t kh kw sh sw pad) :
    ∃ bi i j, q = patchAt t kh kw sh sw
      (padBefore pad t.h kh sh) (padBefore pad t.w kw sw) bi i j := by
  unfold extractTF at hq
  obtain ⟨bi, _, hq⟩ := List.mem_flatMap.mp hq
  obtain ⟨i, _, hq⟩ := List.mem_flatMap.mp hq
  obtain ⟨j, _, rfl⟩ := List.mem_map.mp hq
  exact ⟨bi, i, j, rfl⟩

theorem extractTF_mem_length {t : Tensor4} {kh kw sh sw : ℕ} {pad : String}
    {q : List ℚ} (hq : q ∈ extractTF t kh kw sh sw pad) :
    q.length = kh * (kw * t.c) := by
  obtain ⟨bi, i, j, rfl⟩ := extractTF_mem hq
  exact patchAt_length t kh kw sh sw _ _ bi i j

theorem extractTF_mem_nonneg {t : Tensor4} {kh kw sh sw : ℕ} {pad : String}
    (ht : ∀ x ∈ t.data, 0 ≤ x)
    {q : List ℚ} (hq : q ∈ extractTF t kh kw sh sw pad) :
    ∀ x ∈ q, 0 ≤ x := by
  obtain ⟨bi, i, j, rfl⟩ := extractTF_mem hq
  intro x hx
  rcases patchAt_mem_or_zero t kh kw sh sw _ _ bi i j x hx with hmem | hzero
  · exact ht x hmem
  · rw [hzero]

theorem permute0231_data_mem_or_zero (t : Tensor4) :
    ∀ x ∈ t.permute0231.data, x ∈ t.data ∨ x = 0 := by
  intro x hx
  unfold Tensor4.permute0231 at hx
  obtain ⟨bi, _, hx⟩ := List.mem_flatMap.mp hx
  obtain ⟨i, _, hx⟩ := List.mem_flatMap.mp hx
  obtain ⟨j, _, hx⟩ := List.mem_flatMap.mp hx
  obtain ⟨ch, _, rfl⟩ := List.mem_map.mp hx
  exact px_mem_or_zero t bi ch i j

/-- The method `extract_image_patches` with padding `'valid'` never raises. -/
theorem extract_image_patches_valid (x : Tensor4) (ksizes ssizes : ℕ × ℕ)
    (data_format : String) :
    extract_image_patches x ksizes ssizes "valid" data_format
      = .ok (extractTF (if data_format = "channels_first" then x.permute0231 else x)
          ksizes.1 ksizes.2 ssizes.1 ssizes.2 "VALID") := rfl

/-! Section: Characterizing `DSSIM_call` -/

theorem reshapeK_ok_fields {y : Tensor4} {h w c : ℕ} {r : Tensor4}
    (hr : reshapeK y h w c = .ok r) :
    r.h = h ∧ r.w = w ∧ r.c = c ∧ r.data = y.data := by
  unfold reshapeK at hr
  split at hr
  · cases hr
    exact ⟨rfl, rfl, rfl, rfl⟩
  · cases hr

theorem DSSIM_call_err1 {cfg : DSSIMObjective} {t p : Tensor4}
    {e : String × String} (h1 : reshapeK t p.h p.w p.c = .error e) :
    DSSIM_call cfg t p = .error e := by
  simp [DSSIM_call, h1, Bind.bind, Except.bind]

theorem DSSIM_call_err2 {cfg : DSSIMObjective} {t p yt : Tensor4}
    {e : String × String} (h1 : reshapeK t p.h p.w p.c = .ok yt)
    (h2 : reshapeK p p.h p.w p.c = .error e) :
    DSSIM_call cfg t p = .error e := by
  simp [DSSIM_call, h1, h2, Bind.bind, Except.bind]

theorem DSSIM_call_ok {cfg : DSSIMObjective} {t p yt yp : Tensor4}
    (h1 : reshapeK t p.h p.w p.c = .ok yt)
    (h2 : reshapeK p p.h p.w p.c = .ok yp) :
    DSSIM_call cfg t p = .ok (lossT cfg.c_1 cfg.c_2
      (extractTF (if cfg.dim_ordering = "channels_first" then yt.permute0231 else yt)
        cfg.kernel_size cfg.kernel_size cfg.kernel_size cfg.kernel_size "VALID")
      (extractTF (if cfg.dim_ordering = "channels_first" then yp.permute0231 else yp)
        cfg.kernel_size cfg.kernel_size cfg.kernel_size cfg.kernel_size "VALID")) := by
  simp [DSSIM_call, h1, h2, extract_image_patches_valid, Bind.bind, Except.bind]

theorem mem_zip_self {α : Type} {l : List α} :
    ∀ pq ∈ l.zip l, (pq : α × α).1 = pq.2 := by
  induction l with
  | nil => intro pq hpq; simp at hpq
  | cons a l ih =>
    intro pq hpq
    rw [List.zip_cons_cons] at hpq
    rcases List.mem_cons.mp hpq with rfl | hpq
    · rfl
    · exact ih pq hpq

/-! Section: The `'valid'`, stride-equals-kernel patch grid -/

/-- The non-overlapping patch grid that `'valid'` extraction with stride
equal to the kernel size produces: `h / k` by `w / k` patch positions per
batch element, patch `(i, j)` reading exactly the pixels
`(i*k + a, j*k + b)` for `a, b < k` (trailing rows/columns dropped). -/
def validGridPatches (t : Tensor4) (k : ℕ) : List (List ℚ) :=
  (List.range t.b).flatMap fun bi =>
    (List.range (t.h / k)).flatMap fun i =>
      (List.range (t.w / k)).map fun j =>
        (List.range k).flatMap fun a =>
          (List.range k).flatMap fun b2 =>
            (List.range t.c).map fun ch =>
              t.px bi (i * k + a) (j * k + b2) ch

theorem flatMap_congr {α β : Type} {l : List α} {f g : α → List β}
    (h : ∀ a ∈ l, f a = g a) : l.flatMap f = l.flatMap g := by
  unfold List.flatMap
  rw [List.map_congr_left h]

theorem outDim_valid (x k : ℕ) (hk : 0 < k) : outDim "VALID" x k k = x / k := by
  unfold outDim
  rw [if_pos rfl]
  split
  · rename_i hle
    rw [← Nat.add_div_right (x - k) hk, Nat.sub_add_cancel hle]
  · rename_i hlt
    exact (Nat.div_eq_of_lt (Nat.lt_of_not_le hlt)).symm

theorem padBefore_valid (x k s : ℕ) : padBefore "VALID" x k s = 0 := by
  unfold padBefore
  rw [if_pos rfl]

theorem grid_index_lt {h k i a : ℕ} (hi : i < h / k) (ha : a < k) :
    i * k + a < h :=
  calc i * k + a < i * k + k := by omega
    _ = (i + 1) * k := by ring
    _ ≤ (h / k) * k := Nat.mul_le_mul_right k (Nat.succ_le_of_lt hi)
    _ ≤ h := Nat.div_mul_le_self h k

/-- Extraction with `'valid'` padding and stride = kernel is exactly the non-overlapping
grid with floor-division patch counts. -/
theorem extractTF_valid_grid (t : Tensor4) (k : ℕ) (hk : 0 < k) :
    extractTF t k k k k "VALID" = validGridPatches t k := by
  unfold extractTF validGridPatches
  rw [padBefore_valid, padBefore_valid, outDim_valid t.h k hk,
    outDim_valid t.w k hk]
  refine flatMap_congr fun bi _ => flatMap_congr fun i hi => ?_
  refine List.map_congr_left fun j hj => ?_
  unfold patchAt
  refine flatMap_congr fun a ha => flatMap_congr fun b2 hb2 => ?_
  refine List.map_congr_left fun ch _ => ?_
  rw [List.mem_range] at hi hj
  rw [List.mem_range] at ha hb2
  unfold Tensor4.pxI
  rw [if_pos]
  · congr 1
  · refine ⟨by omega, ?_, by omega, ?_⟩
    · have := grid_index_lt hi ha
      omega
    · have := grid_index_lt hj hb2
      omega

/-! Section: Concrete inputs used as witnesses -/

/-- Batch of shape (1, 6, 6, 1) filled with the constant value 1/2. -/
def tConst : Tensor4 := ⟨1, 6, 6, 1, List.replicate 36 (1/2)⟩

/-- A 3×3 checkerboard image (values 0 and 1), batch shape (1, 3, 3, 1). -/
def cbTrue : Tensor4 := ⟨1, 3, 3, 1, [0, 1, 0, 1, 0, 1, 0, 1, 0]⟩

/-- The complementary 3×3 checkerboard image. -/
def cbPred : Tensor4 := ⟨1, 3, 3, 1, [1, 0, 1, 0, 1, 0, 1, 0, 1]⟩

/-- The same flat data as `cbTrue` declared with a different (compatible)
static shape. -/
def cbTrueFlat : Tensor4 := ⟨9, 1, 1, 1, [0, 1, 0, 1, 0, 1, 0, 1, 0]⟩

/-- C1: for elementwise-identical inputs the returned loss is exactly 0
(whenever the call returns a value), given the strictly positive
stabilization constants. -/
theorem dssim_identical_zero (cfg : DSSIMObjective) (t : Tensor4)
    (hc1 : 0 < cfg.c_1) (hc2 : 0 < cfg.c_2) (v : ℚ)
    (hv : DSSIM_call cfg t t = .ok v) : v = 0 := by
  cases hres : reshapeK t t.h t.w t.c with
  | error e =>
    rw [DSSIM_call_err1 hres] at hv
    cases hv
  | ok yt =>
    rw [DSSIM_call_ok hres hres] at hv
    cases hv
    rw [lossT_eq_zip_map]
    apply meanL_eq_zero
    intro z hz
    obtain ⟨pq, hpq, rfl⟩ := List.mem_map.mp hz
    have hself := mem_zip_self pq hpq
    rw [hself, ssimP_self hc1 hc2]
    norm_num

/-- Specialization of `DSSIM_call_ok` to the default `channels_last` data
format. -/
theorem DSSIM_call_ok_cl {cfg : DSSIMObjective} {t p yt yp : Tensor4}
    (hdo : cfg.dim_ordering = "channels_last")
    (h1 : reshapeK t p.h p.w p.c = .ok yt)
    (h2 : reshapeK p p.h p.w p.c = .ok yp) :
    DSSIM_call cfg t p = .ok (lossT cfg.c_1 cfg.c_2
      (extractTF yt cfg.kernel_size cfg.kernel_size cfg.kernel_size
        cfg.kernel_size "VALID")
      (extractTF yp cfg.kernel_size cfg.kernel_size cfg.kernel_size
        cfg.kernel_size "VALID")) := by
  have hne : ¬("channels_last" = "channels_first") := by decide
  rw [DSSIM_call_ok h1 h2, hdo, if_neg hne, if_neg hne]

theorem reshapeK_tConst :
    reshapeK tConst tConst.h tConst.w tConst.c = .ok tConst := by
  norm_num [reshapeK, tConst]

theorem extractTF_tConst :
    extractTF tConst 3 3 3 3 "VALID"
      = [List.replicate 9 (1/2), List.replicate 9 (1/2),
         List.replicate 9 (1/2), List.replicate 9 (1/2)] := by
  rw [extractTF_valid_grid tConst 3 (by norm_num)]
  simp [validGridPatches, Tensor4.px, tConst, List.range_succ, List.replicate]

/-- Concrete evaluation: the spec scenario input gives loss exactly 0. -/
theorem DSSIM_call_tConst : DSSIM_call defaultDSSIM tConst tConst = .ok 0 := by
  rw [DSSIM_call_ok_cl
    (show defaultDSSIM.dim_ordering = "channels_last" from rfl)
    reshapeK_tConst reshapeK_tConst]
  show Except.ok (lossT defaultDSSIM.c_1 defaultDSSIM.c_2
    (extractTF tConst 3 3 3 3 "VALID") (extractTF tConst 3 3 3 3 "VALID")) = _
  rw [extractTF_tConst]
  norm_num [defaultDSSIM, mkDSSIM, lossT, ssimT, numT, denT, covT, uT, varTl,
    covL, meanL, varL, List.replicate]

/-- C1 witness: the spec scenario, a (1, 6, 6, 1) batch of constant 1/2
compared against itself with kernel_size 3, yields loss exactly 0. -/
theorem dssim_identical_zero_witness :
    0 < defaultDSSIM.c_1 ∧ 0 < defaultDSSIM.c_2 ∧ (0 : ℚ) = 0 :=
  ⟨by norm_num [defaultDSSIM, mkDSSIM], by norm_num [defaultDSSIM, mkDSSIM],
    (dssim_identical_zero defaultDSSIM tConst
      (by norm_num [defaultDSSIM, mkDSSIM]) (by norm_num [defaultDSSIM, mkDSSIM])
      0 DSSIM_call_tConst).symm⟩

theorem reshapeK_cbTrue :
    reshapeK cbTrue cbPred.h cbPred.w cbPred.c = .ok cbTrue := by
  norm_num [reshapeK, cbTrue, cbPred]

theorem reshapeK_cbPred :
    reshapeK cbPred cbPred.h cbPred.w cbPred.c = .ok cbPred := by
  norm_num [reshapeK, cbPred]

theorem extractTF_cbTrue :
    extractTF cbTrue 3 3 3 3 "VALID" = [[0, 1, 0, 1, 0, 1, 0, 1, 0]] := by
  rw [extractTF_valid_grid cbTrue 3 (by norm_num)]
  simp [validGridPatches, Tensor4.px, cbTrue, List.range_succ]

theorem extractTF_cbPred :
    extractTF cbPred 3 3 3 3 "VALID" = [[1, 0, 1, 0, 1, 0, 1, 0, 1]] := by
  rw [extractTF_valid_grid cbPred 3 (by norm_num)]
  simp [validGridPatches, Tensor4.px, cbPred, List.range_succ]

/-- Concrete evaluation: the default configuration applied to the
complementary checkerboards — both with all pixel values inside `[0, 1]` —
returns a loss close to 1, far above 0.5. -/
theorem DSSIM_call_checkerboard :
    DSSIM_call defaultDSSIM cbTrue cbPred
      = .ok (162036045000 / 164331349049) := by
  rw [DSSIM_call_ok_cl
    (show defaultDSSIM.dim_ordering = "channels_last" from rfl)
    reshapeK_cbTrue reshapeK_cbPred]
  show Except.ok (lossT defaultDSSIM.c_1 defaultDSSIM.c_2
    (extractTF cbTrue 3 3 3 3 "VALID") (extractTF cbPred 3 3 3 3 "VALID")) = _
  rw [extractTF_cbTrue, extractTF_cbPred]
  norm_num [defaultDSSIM, mkDSSIM, lossT, ssimT, numT, denT, covT, uT, varTl,
    covL, meanL, varL]

/-- C2: the claimed upper bound 0.5 fails on the code.  With the default
configuration (`max_value = 1`) and complementary 3×3 checkerboards — all
values inside `[0, max_value]`, shapes equal — `__call__` returns
162036045000/164331349049 ≈ 0.986 > 0.5: the similarity of anti-correlated
patches is negative and the code never clips, contrary to its docstring
"Clipped between 0 and 0.5". -/
theorem dssim_exceeds_half :
    DSSIM_call defaultDSSIM cbTrue cbPred = .ok (162036045000 / 164331349049)
      ∧ (1 : ℚ) / 2 < 162036045000 / 164331349049
      ∧ (∀ x ∈ cbTrue.data, 0 ≤ x ∧ x ≤ defaultDSSIM.max_value)
      ∧ (∀ x ∈ cbPred.data, 0 ≤ x ∧ x ≤ defaultDSSIM.max_value) := by
  refine ⟨DSSIM_call_checkerboard, by norm_num, ?_, ?_⟩ <;>
    · intro x hx
      simp only [cbTrue, cbPred, List.mem_cons, List.not_mem_nil, or_false] at hx
      have : x = 0 ∨ x = 1 := by tauto
      rcases this with rfl | rfl <;>
        norm_num [defaultDSSIM, mkDSSIM]

/-- C3: `_preprocess_padding` maps `'same'` to `'SAME'`, `'valid'` to
`'VALID'`, and raises `ValueError('Invalid padding:', padding)` for every
other string — in particular for `'bogus'` — naming the invalid value. -/
theorem preprocess_padding_spec :
    (∀ s : String, preprocess_padding s
      = if s = "same" then .ok "SAME"
        else if s = "valid" then .ok "VALID"
        else .error ("Invalid padding:", s))
    ∧ preprocess_padding "bogus" = .error ("Invalid padding:", "bogus")
    ∧ (∀ s : String,
        (∃ e, preprocess_padding s = .error e) ↔ s ≠ "same" ∧ s ≠ "valid") := by
  refine ⟨fun s => rfl, rfl, fun s => ?_⟩
  unfold preprocess_padding
  by_cases h1 : s = "same"
  · simp [h1]
  · by_cases h2 : s = "valid"
    · simp [h1, h2]
    · simp [h1, h2]

/-! Section: The spec's formula, written per patch -/

/-- Modelled from the spec's wording: per-patch variance as
mean-of-squares minus squared mean. -/
def var_spec (xs : List ℚ) : ℚ := meanL (xs.map fun x => x ^ 2) - (meanL xs) ^ 2

/-- Modelled from the spec's wording: covariance
`mean(patch_true * patch_pred) - u_true * u_pred`. -/
def cov_spec (xs ys : List ℚ) : ℚ :=
  meanL (List.zipWith (fun x y => x * y) xs ys) - meanL xs * meanL ys

/-- Modelled from the spec's wording: per-patch similarity
`(2 u_t u_p + C1)(2 cov + C2) / ((u_t^2 + u_p^2 + C1)(var_t + var_p + C2))`. -/
def similarity_spec (c1 c2 : ℚ) (xs ys : List ℚ) : ℚ :=
  ((2 * meanL xs * meanL ys + c1) * (2 * cov_spec xs ys + c2)) /
    (((meanL xs) ^ 2 + (meanL ys) ^ 2 + c1) * (var_spec xs + var_spec ys + c2))

/-- The spec's description of `__call__`: same reshaping and patch
extraction, then per (true, pred) patch pair the similarity formula, and the
arithmetic mean of `(1 - similarity) / 2` over all patches and batch
elements. -/
def DSSIM_call_spec (cfg : DSSIMObjective) (y_true y_pred : Tensor4) :
    Except (String × String) ℚ := do
  let kernel := (cfg.kernel_size, cfg.kernel_size)
  let yt ← reshapeK y_true y_pred.h y_pred.w y_pred.c
  let yp ← reshapeK y_pred y_pred.h y_pred.w y_pred.c
  let patches_pred ← extract_image_patches yp kernel kernel "valid" cfg.dim_ordering
  let patches_true ← extract_image_patches yt kernel kernel "valid" cfg.dim_ordering
  .ok (meanL ((patches_true.zip patches_pred).map fun pq =>
    (1 - similarity_spec cfg.c_1 cfg.c_2 pq.1 pq.2) / 2))

theorem ssimP_eq_similarity_spec (c1 c2 : ℚ) (xs ys : List ℚ) :
    ssimP c1 c2 xs ys = similarity_spec c1 c2 xs ys := by
  unfold ssimP numP denP similarity_spec var_spec cov_spec covL
  rw [varL_eq, varL_eq]
  ring

/-- C4: the elementwise tensor pipeline of `__call__` computes exactly the
per-patch means/variances/covariance similarity formula and returns the mean
of `(1 - similarity)/2` over all patches and batch elements. -/
theorem dssim_formula (cfg : DSSIMObjective) (t p : Tensor4) :
    DSSIM_call cfg t p = DSSIM_call_spec cfg t p := by
  cases hres1 : reshapeK t p.h p.w p.c with
  | error e =>
    simp [DSSIM_call, DSSIM_call_spec, hres1, Bind.bind, Except.bind]
  | ok yt =>
    cases hres2 : reshapeK p p.h p.w p.c with
    | error e =>
      simp [DSSIM_call, DSSIM_call_spec, hres1, hres2, Bind.bind, Except.bind]
    | ok yp =>
      simp only [DSSIM_call, DSSIM_call_spec, hres1, hres2,
        extract_image_patches_valid, Bind.bind, Except.bind]
      rw [lossT_eq_zip_map]
      refine congrArg Except.ok (congrArg meanL (List.map_congr_left fun pq _ => ?_))
      rw [ssimP_eq_similarity_spec]

/-! Section: State-passing form of `__call__` (frame condition) -/

/-- Reading an attribute of the configuration object: returns the value and
leaves the object state unchanged, making every state access explicit. -/
def readField {α : Type} (f : DSSIMObjective → α) (s : DSSIMObjective) :
    α × DSSIMObjective := (f s, s)

/-- Embedding of `__call__` with the object state threaded through every attribute access
(`self.kernel_size`, `self.dim_ordering`, `self.c_1`, `self.c_2` — the
source contains no attribute assignment), returning the final state. -/
def DSSIM_call_state (cfg : DSSIMObjective) (y_true y_pred : Tensor4) :
    Except (String × String) ℚ × DSSIMObjective :=
  let ks := readField DSSIMObjective.kernel_size cfg
  let dord := readField DSSIMObjective.dim_ordering ks.2
  let c1r := readField DSSIMObjective.c_1 dord.2
  let c2r := readField DSSIMObjective.c_2 c1r.2
  (do
    let kernel := (ks.1, ks.1)
    let yt ← reshapeK y_true y_pred.h y_pred.w y_pred.c
    let yp ← reshapeK y_pred y_pred.h y_pred.w y_pred.c
    let patches_pred ← extract_image_patches yp kernel kernel "valid" dord.1
    let patches_true ← extract_image_patches yt kernel kernel "valid" dord.1
    .ok (lossT c1r.1 c2r.1 patches_true patches_pred), c2r.2)

/-- C8: `__call__` never mutates the configuration: the state after the call
is exactly the constructed state (all fields unchanged), and the returned
value is the pure function of configuration and inputs, so repeated calls
with the same inputs behave identically. -/
theorem dssim_call_no_side_effects (cfg : DSSIMObjective) (t p : Tensor4) :
    (DSSIM_call_state cfg t p).2 = cfg
      ∧ (DSSIM_call_state cfg t p).1 = DSSIM_call cfg t p
      ∧ (DSSIM_call_state cfg t p).2.k1 = cfg.k1
      ∧ (DSSIM_call_state cfg t p).2.k2 = cfg.k2
      ∧ (DSSIM_call_state cfg t p).2.kernel_size = cfg.kernel_size
      ∧ (DSSIM_call_state cfg t p).2.max_value = cfg.max_value
      ∧ (DSSIM_call_state cfg t p).2.c_1 = cfg.c_1
      ∧ (DSSIM_call_state cfg t p).2.c_2 = cfg.c_2
      ∧ (DSSIM_call_state cfg t p).2.dim_ordering = cfg.dim_ordering
      ∧ (DSSIM_call_state cfg t p).2.backend = cfg.backend :=
  ⟨rfl, rfl, rfl, rfl, rfl, rfl, rfl, rfl, rfl, rfl⟩

/-! Section: Symmetry -/

theorem reshapeK_error_eq {y : Tensor4} {h w c : ℕ} {e : String × String}
    (he : reshapeK y h w c = .error e) : e = ("Cannot reshape", "") := by
  unfold reshapeK at he
  split at he
  · cases he
  · cases he
    rfl

theorem lossT_comm (c1 c2 : ℚ) (P Q : List (List ℚ)) :
    lossT c1 c2 P Q = lossT c1 c2 Q P := by
  rw [lossT_eq_zip_map, lossT_eq_zip_map, ← List.zip_swap P Q, List.map_map]
  refine congrArg meanL (List.map_congr_left fun pq _ => ?_)
  simp only [Function.comp_apply, Prod.fst_swap, Prod.snd_swap]
  rw [ssimP_comm]

/-- C5: for equally-shaped inputs, swapping the two arguments of `__call__`
yields the same loss. -/
theorem dssim_symm (cfg : DSSIMObjective) (a b : Tensor4)
    (_hsb : a.b = b.b) (hsh : a.h = b.h) (hsw : a.w = b.w) (hsc : a.c = b.c) :
    DSSIM_call cfg a b = DSSIM_call cfg b a := by
  cases h1 : reshapeK a b.h b.w b.c with
  | error e1 =>
    have h1' : reshapeK a a.h a.w a.c = .error e1 := by rw [hsh, hsw, hsc]; exact h1
    rw [DSSIM_call_err1 h1]
    cases h2 : reshapeK b a.h a.w a.c with
    | error e2 =>
      rw [DSSIM_call_err1 h2, reshapeK_error_eq h1, reshapeK_error_eq h2]
    | ok yp =>
      rw [DSSIM_call_err2 h2 h1']
  | ok yt =>
    have h1' : reshapeK a a.h a.w a.c = .ok yt := by rw [hsh, hsw, hsc]; exact h1
    cases h2 : reshapeK b b.h b.w b.c with
    | error e2 =>
      have h2' : reshapeK b a.h a.w a.c = .error e2 := by rw [hsh, hsw, hsc]; exact h2
      rw [DSSIM_call_err2 h1 h2, DSSIM_call_err1 h2']
    | ok yp =>
      have h2' : reshapeK b a.h a.w a.c = .ok yp := by rw [hsh, hsw, hsc]; exact h2
      rw [DSSIM_call_ok h1 h2, DSSIM_call_ok h2' h1', lossT_comm]

/-- C5 witness: swapping the checkerboard arguments leaves the loss
unchanged. -/
theorem dssim_symm_witness :
    DSSIM_call defaultDSSIM cbTrue cbPred = DSSIM_call defaultDSSIM cbPred cbTrue :=
  dssim_symm defaultDSSIM cbTrue cbPred rfl rfl rfl rfl

/-! Section: Positivity of the denominator -/

theorem mem_zipWith {α β γ : Type} {f : α → β → γ} {x : γ} :
    ∀ {as : List α} {bs : List β}, x ∈ List.zipWith f as bs →
      ∃ a ∈ as, ∃ b ∈ bs, x = f a b := by
  intro as
  induction as with
  | nil => intro bs h; simp at h
  | cons a as ih =>
    intro bs h
    cases bs with
    | nil => simp at h
    | cons b bs =>
      rw [List.zipWith_cons_cons] at h
      rcases List.mem_cons.mp h with rfl | h
      · exact ⟨a, List.mem_cons_self a as, b, List.mem_cons_self b bs, rfl⟩
      · obtain ⟨a2, ha2, b2, hb2, rfl⟩ := ih h
        exact ⟨a2, List.mem_cons_of_mem a ha2, b2, List.mem_cons_of_mem b hb2, rfl⟩

/-- Every entry of the `denom` tensor is strictly positive. -/
theorem denT_mem_pos {c1 c2 : ℚ} (hc1 : 0 < c1) (hc2 : 0 < c2)
    (P Q : List (List ℚ)) : ∀ d ∈ denT c1 c2 P Q, 0 < d := by
  intro d hd
  unfold denT at hd
  obtain ⟨a, ha, v, hv, rfl⟩ := mem_zipWith hd
  obtain ⟨ua, _, ub, _, rfl⟩ := mem_zipWith ha
  obtain ⟨vq, hvq, vp, hvp, rfl⟩ := mem_zipWith hv
  obtain ⟨q, _, rfl⟩ := List.mem_map.mp hvq
  obtain ⟨p2, _, rfl⟩ := List.mem_map.mp hvp
  have h1 : 0 < ua ^ 2 + ub ^ 2 + c1 := by positivity
  have h2 : 0 < varL q + varL p2 + c2 := by
    have := varL_nonneg q
    have := varL_nonneg p2
    linarith
  exact mul_pos h1 h2

/-- C6: with positive `k1`, `k2`, `max_value`, the constants
`c_1 = (k1 max)^2` and `c_2 = (k2 max)^2` are strictly positive and every
entry of the denominator tensor of `__call__` is strictly positive, so the
division never divides by zero. -/
theorem dssim_denominator_pos (k1 k2 : ℚ) (ks : ℕ) (mv : ℚ)
    (dord bk : String) (hk1 : 0 < k1) (hk2 : 0 < k2) (hmv : 0 < mv) :
    0 < (mkDSSIM k1 k2 ks mv dord bk).c_1
      ∧ 0 < (mkDSSIM k1 k2 ks mv dord bk).c_2
      ∧ ∀ P Q : List (List ℚ), ∀ d ∈ denT (mkDSSIM k1 k2 ks mv dord bk).c_1
          (mkDSSIM k1 k2 ks mv dord bk).c_2 P Q, 0 < d := by
  have hc1 : 0 < (mkDSSIM k1 k2 ks mv dord bk).c_1 := by
    show (0 : ℚ) < (k1 * mv) ^ 2
    positivity
  have hc2 : 0 < (mkDSSIM k1 k2 ks mv dord bk).c_2 := by
    show (0 : ℚ) < (k2 * mv) ^ 2
    positivity
  exact ⟨hc1, hc2, fun P Q => denT_mem_pos hc1 hc2 P Q⟩

/-- C6 witness: the default construction has positive constants and a
positive denominator tensor everywhere. -/
theorem dssim_denominator_pos_witness :
    0 < defaultDSSIM.c_1 ∧ 0 < defaultDSSIM.c_2
      ∧ ∀ P Q : List (List ℚ),
          ∀ d ∈ denT defaultDSSIM.c_1 defaultDSSIM.c_2 P Q, 0 < d :=
  dssim_denominator_pos (1/100) (3/100) 3 1 "channels_last" "tensorflow"
    (by norm_num) (by norm_num) (by norm_num)

theorem validGridPatches_length (t : Tensor4) (k : ℕ) :
    (validGridPatches t k).length = t.b * (t.h / k * (t.w / k)) := by
  unfold validGridPatches
  rw [length_flatMap_const _ (t.h / k * (t.w / k)) fun bi _ => ?_,
    List.length_range]
  rw [length_flatMap_const _ (t.w / k) fun i _ => ?_, List.length_range]
  rw [List.length_map, List.length_range]

/-- C7: `__call__` extracts patches with the configured kernel size as both
kernel and stride under `'valid'` padding: the patches are exactly the
non-overlapping `h/k × w/k` grid (`patch (i,j)` reads pixels
`(i*k+a, j*k+b)`, `a,b < k`), trailing pixels beyond `(h/k)*k` resp.
`(w/k)*k` are dropped, and the covering map `(i,a) ↦ i*k+a` is injective, so
distinct patches touch distinct pixels. -/
theorem dssim_call_valid_patches (cfg : DSSIMObjective)
    (y_true y_pred yt yp : Tensor4) (k : ℕ) (hk : 0 < k)
    (hdo : cfg.dim_ordering = "channels_last") (hks : cfg.kernel_size = k)
    (h1 : reshapeK y_true y_pred.h y_pred.w y_pred.c = .ok yt)
    (h2 : reshapeK y_pred y_pred.h y_pred.w y_pred.c = .ok yp) :
    DSSIM_call cfg y_true y_pred
      = .ok (lossT cfg.c_1 cfg.c_2 (validGridPatches yt k) (validGridPatches yp k))
    ∧ extract_image_patches yp (k, k) (k, k) "valid" cfg.dim_ordering
        = .ok (validGridPatches yp k)
    ∧ (validGridPatches yp k).length = yp.b * (yp.h / k * (yp.w / k))
    ∧ yp.h / k * k ≤ yp.h ∧ yp.w / k * k ≤ yp.w
    ∧ (∀ i a i2 a2 : ℕ, a < k → a2 < k →
        i * k + a = i2 * k + a2 → i = i2 ∧ a = a2) := by
  refine ⟨?_, ?_, validGridPatches_length yp k,
    Nat.div_mul_le_self yp.h k, Nat.div_mul_le_self yp.w k,
    fun i a i2 a2 ha ha2 heq => ?_⟩
  · rw [DSSIM_call_ok_cl hdo h1 h2, hks, extractTF_valid_grid yt k hk,
      extractTF_valid_grid yp k hk]
  · rw [extract_image_patches_valid, hdo,
      if_neg (by decide : ¬("channels_last" = "channels_first"))]
    show Except.ok (extractTF yp k k k k "VALID") = _
    rw [extractTF_valid_grid yp k hk]
  · have e1 : (i * k + a) / k = i := by
      rw [mul_comm, Nat.mul_add_div hk, Nat.div_eq_of_lt ha, Nat.add_zero]
    have e2 : (i2 * k + a2) / k = i2 := by
      rw [mul_comm, Nat.mul_add_div hk, Nat.div_eq_of_lt ha2, Nat.add_zero]
    have hi : i = i2 := by rw [← e1, ← e2, heq]
    subst hi
    exact ⟨rfl, Nat.add_left_cancel heq⟩

/-- C7 witness: on the concrete checkerboard call the patches are the
non-overlapping valid grid. -/
theorem dssim_call_valid_patches_witness :
    DSSIM_call defaultDSSIM cbTrue cbPred
      = .ok (lossT defaultDSSIM.c_1 defaultDSSIM.c_2
          (validGridPatches cbTrue 3) (validGridPatches cbPred 3)) :=
  (dssim_call_valid_patches defaultDSSIM cbTrue cbPred cbTrue cbPred 3
    (by norm_num) rfl rfl reshapeK_cbTrue reshapeK_cbPred).1

/-! Section: Nonnegativity of the loss -/

theorem fmt_data_nonneg (x : Tensor4) (hx : ∀ z ∈ x.data, 0 ≤ z)
    (cond : Prop) [Decidable cond] :
    ∀ z ∈ (if cond then x.permute0231 else x).data, 0 ≤ z := by
  split
  · intro z hz
    rcases permute0231_data_mem_or_zero x z hz with hmem | hzero
    · exact hx z hmem
    · rw [hzero]
  · exact hx

/-- C9 (implicit): for inputs with nonnegative pixel values and positive
`k1`, `k2`, `max_value`, the returned loss is nonnegative — each per-patch
similarity is at most 1. -/
theorem dssim_loss_nonneg (k1 k2 : ℚ) (ks : ℕ) (mv : ℚ) (dord bk : String)
    (hk1 : 0 < k1) (hk2 : 0 < k2) (hmv : 0 < mv) (t p : Tensor4)
    (ht : ∀ x ∈ t.data, 0 ≤ x) (hp : ∀ x ∈ p.data, 0 ≤ x) (v : ℚ)
    (hv : DSSIM_call (mkDSSIM k1 k2 ks mv dord bk) t p = .ok v) :
    0 ≤ v := by
  have hc1 : 0 < (mkDSSIM k1 k2 ks mv dord bk).c_1 := by
    show (0 : ℚ) < (k1 * mv) ^ 2
    positivity
  have hc2 : 0 < (mkDSSIM k1 k2 ks mv dord bk).c_2 := by
    show (0 : ℚ) < (k2 * mv) ^ 2
    positivity
  cases hres1 : reshapeK t p.h p.w p.c with
  | error e =>
    rw [DSSIM_call_err1 hres1] at hv
    cases hv
  | ok yt =>
    cases hres2 : reshapeK p p.h p.w p.c with
    | error e =>
      rw [DSSIM_call_err2 hres1 hres2] at hv
      cases hv
    | ok yp =>
      rw [DSSIM_call_ok hres1 hres2] at hv
      cases hv
      obtain ⟨hyth, _, hytc, hytd⟩ := reshapeK_ok_fields hres1
      obtain ⟨hyph, _, hypc, hypd⟩ := reshapeK_ok_fields hres2
      have hAc : (if (mkDSSIM k1 k2 ks mv dord bk).dim_ordering = "channels_first"
            then yt.permute0231 else yt).c
          = (if (mkDSSIM k1 k2 ks mv dord bk).dim_ordering = "channels_first"
            then yp.permute0231 else yp).c := by
        split
        · show yt.h = yp.h
          rw [hyth, hyph]
        · rw [hytc, hypc]
      have hAn : ∀ z ∈ (if (mkDSSIM k1 k2 ks mv dord bk).dim_ordering = "channels_first"
          then yt.permute0231 else yt).data, 0 ≤ z :=
        fmt_data_nonneg yt (hytd ▸ ht) _
      have hBn : ∀ z ∈ (if (mkDSSIM k1 k2 ks mv dord bk).dim_ordering = "channels_first"
          then yp.permute0231 else yp).data, 0 ≤ z :=
        fmt_data_nonneg yp (hypd ▸ hp) _
      rw [lossT_eq_zip_map]
      apply meanL_nonneg
      intro z hz
      obtain ⟨pq, hpq, rfl⟩ := List.mem_map.mp hz
      obtain ⟨x, y⟩ := pq
      obtain ⟨hxm, hym⟩ := List.of_mem_zip hpq
      have hlen : x.length = y.length := by
        rw [extractTF_mem_length hxm, extractTF_mem_length hym, hAc]
      have hxn := extractTF_mem_nonneg hAn hxm
      have hyn := extractTF_mem_nonneg hBn hym
      have hone := ssimP_le_one hc1 hc2 hlen hxn hyn
      show 0 ≤ (1 - ssimP _ _ x y) / 2
      linarith

/-- C9 witness: the checkerboard pair has nonnegative pixels, and the
returned loss 162036045000/164331349049 is nonnegative. -/
theorem dssim_loss_nonneg_witness : (0 : ℚ) ≤ 162036045000 / 164331349049 :=
  dssim_loss_nonneg (1/100) (3/100) 3 1 "channels_last" "tensorflow"
    (by norm_num) (by norm_num) (by norm_num) cbTrue cbPred
    (by intro x hx
        simp only [cbTrue, List.mem_cons, List.not_mem_nil, or_false] at hx
        have : x = 0 ∨ x = 1 := by tauto
        rcases this with rfl | rfl <;> norm_num)
    (by intro x hx
        simp only [cbPred, List.mem_cons, List.not_mem_nil, or_false] at hx
        have : x = 0 ∨ x = 1 := by tauto
        rcases this with rfl | rfl <;> norm_num)
    (162036045000 / 164331349049) DSSIM_call_checkerboard

/-! Section: The static shape of `y_true` is ignored -/

theorem reshapeK_data_only {t1 t2 : Tensor4} (h : t1.data = t2.data)
    (hh ww cc : ℕ) : reshapeK t1 hh ww cc = reshapeK t2 hh ww cc := by
  unfold reshapeK
  rw [h]

/-- C10 (implicit): `__call__` reshapes `y_true` using only the static
per-sample shape of `y_pred`; `y_true`'s own shape is ignored, so any
`y_true` carrying the same flat data — whatever its declared layout — is
silently coerced and produces the same result. -/
theorem dssim_ignores_true_shape (cfg : DSSIMObjective) (t1 t2 p : Tensor4)
    (h : t1.data = t2.data) :
    DSSIM_call cfg t1 p = DSSIM_call cfg t2 p := by
  unfold DSSIM_call
  rw [reshapeK_data_only h]

/-- C10 witness: a (1,3,3,1) tensor and a (9,1,1,1) tensor with the same
flat data are interchangeable as `y_true`. -/
theorem dssim_ignores_true_shape_witness :
    DSSIM_call defaultDSSIM cbTrue cbPred
      = DSSIM_call defaultDSSIM cbTrueFlat cbPred :=
  dssim_ignores_true_shape defaultDSSIM cbTrue cbTrueFlat cbPred rfl
